import Mathlib

/-!
Shallow embedding of `export2kml.py` (QGIS plugin "Export 2KML"): batch export
of selected vector and raster layers to a single KML document or a KMZ archive.

Vector features become `<Placemark>` entries under one `<Folder>` per layer;
rasters are rendered to opaque PNGs and referenced by `<GroundOverlay>`
elements; the run either moves the serialized document to the output path
(no rasters) or zips `doc.kml` together with the PNGs (at least one raster).

External libraries (OGR/GDAL geometry export, spatial-reference comparison,
warping) are modelled from the specification of their interfaces; everything
else is translated directly from the source.
-/

namespace Export2KML

/-! ## XML element tree (model of `xml.etree.ElementTree` nodes) -/

/-- An XML element: tag, attributes, optional text, and child elements. -/
inductive XmlNode where
  | mk (tag : String) (attrs : List (String × String)) (text : Option String)
       (children : List XmlNode)

def XmlNode.tag : XmlNode → String
  | .mk t _ _ _ => t

def XmlNode.attrs : XmlNode → List (String × String)
  | .mk _ a _ _ => a

def XmlNode.text : XmlNode → Option String
  | .mk _ _ tx _ => tx

def XmlNode.children : XmlNode → List XmlNode
  | .mk _ _ _ cs => cs

/-- First child with the given tag (used to read back `<name>` etc.). -/
def XmlNode.childNamed (n : XmlNode) (t : String) : Option XmlNode :=
  n.children.find? (fun c => c.tag = t)

/-- Text of the first child with the given tag. -/
def XmlNode.childText (n : XmlNode) (t : String) : Option String :=
  (n.childNamed t).bind XmlNode.text

/-! ## Field values (model of OGR feature attribute values) -/

/-- An attribute value as OGR hands it to Python (before `str(...)`). -/
inductive Value where
  | vStr (s : String)
  | vInt (n : Int)
  | vNone
deriving Repr, DecidableEq

/-- Python `str(...)` applied to a field value. -/
def Value.pyStr : Value → String
  | .vStr s => s
  | .vInt n => toString n
  | .vNone => "None"

/-- One vector feature: field values keyed by field name, optional geometry
id is added later; geometry itself is introduced with the translator. -/
structure Feature (γ : Type) where
  vals : List (String × Value)
  geom : Option γ
deriving Repr, DecidableEq

/-- Model of `feat.GetField(name)`: look up a field value (unset fields read as null). -/
def Feature.getField (f : Feature γ) (n : String) : Value :=
  ((f.vals.lookup n).getD .vNone)

/-- A vector data source layer: its field schema (the names reported by
`GetLayerDefn`) and its features in native iteration order. -/
structure VectorLayer (γ : Type) where
  schema : List String
  features : List (Feature γ)
deriving Repr, DecidableEq

/-! ## Property bindings (the `props` dict of the source)

`props` is a Python dict; the string-valued entries (from the KML property
combos, plus `folder_name`/`name`/`description` when used via the API) live in
`entries`; the list-valued `fields` key is carried separately. -/

structure Props where
  entries : List (String × String)
  fields : Option (List String)
deriving Repr, DecidableEq

/-- Model of `props.get(k)` for the string-valued keys. -/
def Props.get (p : Props) (k : String) : Option String :=
  p.entries.lookup k

/-- Python truthiness of `props.get(k)`: present and a non-empty string. -/
def Props.truthy (p : Props) (k : String) : Bool :=
  (p.get k).getD "" ≠ ""

/-- Python truthiness of `props.get('fields')`: present and a non-empty list. -/
def Props.fieldsTruthy (p : Props) : Bool :=
  p.fields.getD [] ≠ []

/-! ## Path helpers (`os.path.basename`, `os.path.splitext`) -/

/-- Model of `os.path.basename` on POSIX: the part after the last `/`. -/
def basename (p : String) : String :=
  (p.splitOn "/").getLastD ""

/-- Model of `os.path.splitext(b)[0]` for a path with no directory part: drop the
extension at the last dot, unless every character before that dot is a dot
(leading-dot names keep their dots). -/
def splitextBase (b : String) : String :=
  let cs := b.toList
  match ((List.range cs.length).filter (fun i => cs.getD i ' ' = '.')).getLast? with
  | none => b
  | some d =>
    if (List.range d).any (fun j => cs.getD j ' ' ≠ '.') then
      String.mk (cs.take d)
    else b

/-- Base name of a layer source path, extension stripped
(`os.path.splitext(os.path.basename(path))[0]`). -/
def pathBase (p : String) : String :=
  splitextBase (basename p)

/-! ## Geometry and the Geometry Translator

Modelled from the spec: the translator (OGR `ExportToKML` applied to the
feature geometry's WKB) turns a geometry — point, line string, polygon
(outer ring plus inner rings), possibly multi-part — into the equivalent
KML subtree with the same type, coordinate ordering and dimensionality
(elevation optional). A coordinate tuple is modelled as one `coordTuple`
child of the `coordinates` element (the serialized form separates tuples
with spaces). Coordinates are carried as exact numbers and never altered:
no reprojection happens on vector geometry. -/

/-- One coordinate tuple: longitude, latitude, optional elevation. -/
structure Coord where
  x : ℚ
  y : ℚ
  z : Option ℚ
deriving Repr, DecidableEq

/-- A single-part geometry. A polygon is an outer ring plus inner rings. -/
inductive SimpleGeometry where
  | point (c : Coord)
  | lineString (cs : List Coord)
  | polygon (outer : List Coord) (inners : List (List Coord))
deriving Repr, DecidableEq

/-- A feature geometry: single-part or multi-part. -/
inductive Geometry where
  | simple (s : SimpleGeometry)
  | multi (parts : List SimpleGeometry)
deriving Repr, DecidableEq

/-- Geometry type tags as the claims speak of them. -/
inductive GType where
  | point
  | line
  | polygon
  | multi
deriving Repr, DecidableEq

def SimpleGeometry.gtype : SimpleGeometry → GType
  | .point _ => .point
  | .lineString _ => .line
  | .polygon _ _ => .polygon

def Geometry.gtype : Geometry → GType
  | .simple s => s.gtype
  | .multi _ => .multi

/-- Number of coordinate tuples in a single-part geometry. -/
def SimpleGeometry.coordCount : SimpleGeometry → Nat
  | .point _ => 1
  | .lineString cs => cs.length
  | .polygon outer inners => outer.length + (inners.map List.length).sum

/-- Number of coordinate tuples in a geometry. -/
def Geometry.coordCount : Geometry → Nat
  | .simple s => s.coordCount
  | .multi parts => (parts.map SimpleGeometry.coordCount).sum

/-- Serialized form of one coordinate tuple, `x,y` or `x,y,z`. -/
def coordText (c : Coord) : String :=
  match c.z with
  | none => toString c.x ++ "," ++ toString c.y
  | some z => toString c.x ++ "," ++ toString c.y ++ "," ++ toString z

/-- The `coordinates` element, one `coordTuple` child per tuple. -/
def coordinatesNode (cs : List Coord) : XmlNode :=
  .mk "coordinates" [] none (cs.map (fun c => .mk "coordTuple" [] (some (coordText c)) []))

/-- KML subtree of a single-part geometry. -/
def kmlOfSimple : SimpleGeometry → XmlNode
  | .point c => .mk "Point" [] none [coordinatesNode [c]]
  | .lineString cs => .mk "LineString" [] none [coordinatesNode cs]
  | .polygon outer inners =>
      .mk "Polygon" [] none
        (.mk "outerBoundaryIs" [] none [.mk "LinearRing" [] none [coordinatesNode outer]] ::
         inners.map (fun ring =>
           .mk "innerBoundaryIs" [] none [.mk "LinearRing" [] none [coordinatesNode ring]]))

/-- Modelled from the spec: OGR `ExportToKML` of a geometry rebuilt from the
feature's WKB — the markup geometry subtree matching the source type. -/
def exportToKML : Geometry → XmlNode
  | .simple s => kmlOfSimple s
  | .multi parts => .mk "MultiGeometry" [] none (parts.map kmlOfSimple)

/-- Geometry type of a KML subtree, read from its root tag. -/
def kmlGType (n : XmlNode) : Option GType :=
  if n.tag = "Point" then some .point
  else if n.tag = "LineString" then some .line
  else if n.tag = "Polygon" then some .polygon
  else if n.tag = "MultiGeometry" then some .multi
  else none

/-- Number of coordinate tuples in a list of XML subtrees: `coordTuple`
nodes counted at any depth. -/
def tupleCountList : List XmlNode → Nat
  | [] => 0
  | .mk t _ _ cs :: rest =>
      (if t = "coordTuple" then 1 else 0) + tupleCountList cs + tupleCountList rest

/-- Number of coordinate tuples in a KML subtree. -/
def tupleCount (n : XmlNode) : Nat :=
  tupleCountList [n]

/-- Tags of the geometry elements that can appear at the top of a
translated subtree. -/
def geomTags : List String :=
  ["Point", "LineString", "Polygon", "MultiGeometry"]

/-! ## Vector Exporter (`add_vector_layer`) -/

/-- Resolve a name/description binding for one feature: a binding that
matches an available field name reads the feature's field (stringified),
any other binding is the literal text itself (`str` of a string is itself). -/
def resolveBinding (avail : List String) (f : Feature Geometry) (b : String) : String :=
  if b ∈ avail then (f.getField b).pyStr else b

/-- A `<Data name="fld"><value>v</value></Data>` entry. -/
def dataNode (fld v : String) : XmlNode :=
  .mk "Data" [("name", fld)] none [.mk "value" [] (some v) []]

/-- The `<Placemark>` built for one feature (the body of the feature loop in
`add_vector_layer`): optional `name`, optional `description`, optional
`ExtendedData` with one `Data` entry per requested field present in the
schema, then the children of the wrapped `ExportToKML` output when the
geometry is non-null. -/
def placemarkOfFeature (avail : List String) (props : Props) (f : Feature Geometry) : XmlNode :=
  let nameKids :=
    if props.truthy "name" then
      [XmlNode.mk "name" [] (some (resolveBinding avail f ((props.get "name").getD ""))) []]
    else []
  let descKids :=
    if props.truthy "description" then
      [XmlNode.mk "description" []
        (some (resolveBinding avail f ((props.get "description").getD ""))) []]
    else []
  let extKids :=
    if props.fieldsTruthy then
      [XmlNode.mk "ExtendedData" [] none
        ((props.fields.getD []).filterMap (fun fld =>
          if fld ∈ avail then some (dataNode fld (f.getField fld).pyStr) else none))]
    else []
  let geomKids :=
    match f.geom with
    | none => []
    | some g => [exportToKML g]
  .mk "Placemark" [] none (nameKids ++ descKids ++ extKids ++ geomKids)

/-- The `<Folder>` built for one vector layer: its `<name>` (bound folder
name, else the path's base name) followed by one Placemark per feature in
native iteration order. -/
def folderOfLayer (path : String) (props : Props) (layer : VectorLayer Geometry) : XmlNode :=
  let label := if props.truthy "folder_name" then (props.get "folder_name").getD ""
               else pathBase path
  .mk "Folder" [] none
    (.mk "name" [] (some label) [] ::
     layer.features.map (placemarkOfFeature layer.schema props))

/-- Model of `add_vector_layer(doc, path, props)`: append the layer's Folder to the
Document's children. The data source is the already-opened layer; opening
failure is handled in the run model. -/
def add_vector_layer (doc : List XmlNode) (path : String) (props : Props)
    (layer : VectorLayer Geometry) : List XmlNode :=
  doc ++ [folderOfLayer path props layer]

/-- The Placemark children of a node, in order. -/
def placemarksOf (n : XmlNode) : List XmlNode :=
  n.children.filter (fun c => c.tag = "Placemark")

/-- The geometry children of a Placemark (children whose tag is one of the
translated geometry elements). -/
def geometryChildrenOf (n : XmlNode) : List XmlNode :=
  n.children.filter (fun c => c.tag ∈ geomTags)

/-- The `ExtendedData` children of a Placemark. -/
def extendedDataOf (n : XmlNode) : List XmlNode :=
  n.children.filter (fun c => c.tag = "ExtendedData")

/-- The `(name, value)` pairs of the Data entries under a Placemark's
ExtendedData sections, in order. -/
def dataEntriesOf (n : XmlNode) : List (String × String) :=
  (extendedDataOf n).flatMap fun e =>
    e.children.filterMap fun d =>
      if d.tag = "Data" then
        some ((d.attrs.lookup "name").getD "", (d.childText "value").getD "")
      else none

/-! ## Coordinate Reprojector and Raster Exporter (`add_raster_layer`)

Modelled from the spec where GDAL is external: a spatial reference carries
both its raw definition text (`wkt`) and the semantic content GDAL's
`IsSame` compares — a full spatial-reference-definition comparison, here a
normal form — so that two differently formatted but equivalent definitions
compare equal while their texts differ. -/

/-- A spatial reference: its raw WKT text and its semantic normal form. -/
structure SRS where
  wkt : String
  normForm : String
deriving Repr, DecidableEq

/-- Modelled from the spec: `osr.SpatialReference.IsSame` compares the full
spatial-reference definitions (here, normal forms), never the raw text. -/
def SRS.isSame (a b : SRS) : Bool :=
  a.normForm = b.normForm

/-- The geographic target reference, `tgt.ImportFromEPSG(4326)`. -/
def epsg4326 : SRS :=
  { wkt := "GEOGCS[\"WGS 84\",DATUM[\"WGS_1984\"],AUTHORITY[\"EPSG\",\"4326\"]]"
    normForm := "EPSG:4326" }

/-- A GDAL raster dataset as `add_raster_layer` reads it: projection,
geotransform coefficients (only indices 0, 1, 3, 5 are used) and the pixel
sizes. -/
structure GdalDataset where
  srs : SRS
  gt0 : ℚ
  gt1 : ℚ
  gt3 : ℚ
  gt5 : ℚ
  xsize : Nat
  ysize : Nat
deriving Repr, DecidableEq

/-- One call to `gdal.Warp`: destination name, format, target reference.
The source always passes destination `''` and format `'VRT'` — a virtual
in-memory view, no permanent file. -/
structure WarpCall where
  dstName : String
  format : String
  dstSRS : String
deriving Repr, DecidableEq

/-- Lines 163–167 of the source: build the source reference from the
dataset's projection, the target from EPSG:4326, and warp to a VRT only
when `IsSame` fails. Returns the dataset whose transform is used for the
bounds, together with the warp calls issued. The warp engine itself is
external and passed in. -/
def ensureGeographic (warp : GdalDataset → GdalDataset) (ds : GdalDataset) :
    GdalDataset × List WarpCall :=
  if ds.srs.isSame epsg4326 then (ds, [])
  else (warp ds, [{ dstName := "", format := "VRT", dstSRS := "EPSG:4326" }])

/-- Geographic bounding box of a GroundOverlay. -/
structure GeoBounds where
  north : ℚ
  south : ℚ
  east : ℚ
  west : ℚ
deriving Repr, DecidableEq

/-- Lines 168–172: `minx, maxy = gt[0], gt[3]`, `maxx = minx + gt[1] * xs`,
`miny = maxy + gt[5] * ys`, read from the (possibly warped) dataset. -/
def computeBounds (ds : GdalDataset) : GeoBounds :=
  { north := ds.gt3
    south := ds.gt3 + ds.gt5 * (ds.ysize : ℚ)
    east := ds.gt0 + ds.gt1 * (ds.xsize : ℚ)
    west := ds.gt0 }

/-- What `add_raster_layer` needs from its environment for one raster:
whether `QgsRasterLayer` loads, and what `gdal.Open` returns. Rendering and
PNG compositing only produce the image file; the file's pixel content is
outside the claims and is represented by its path. -/
structure RasterSource where
  rlayerValid : Bool
  gdalDs : Option GdalDataset
deriving Repr, DecidableEq

/-- The `<GroundOverlay>` element of lines 176–186. -/
def groundOverlayNode (label imgName : String) (b : GeoBounds) : XmlNode :=
  .mk "GroundOverlay" [] none
    [ .mk "visibility" [] (some "1") []
    , .mk "name" [] (some label) []
    , .mk "Icon" [] none [.mk "href" [] (some ("rasters/" ++ imgName)) []]
    , .mk "LatLonBox" [] none
        [ .mk "north" [] (some (toString b.north)) []
        , .mk "south" [] (some (toString b.south)) []
        , .mk "east" [] (some (toString b.east)) []
        , .mk "west" [] (some (toString b.west)) [] ] ]

/-- Model of `add_raster_layer(doc, path, props, rasters_dir)`: render the raster to
`<rasters_dir>/<base>.png`, compute the geographic bounds (warping to a VRT
when the native reference is not the geographic one), and append a
GroundOverlay. Returns the new Document children and the saved image path,
or the run-aborting error message. -/
def rasterImgName (path : String) : String :=
  pathBase path ++ ".png"

def rasterImgPath (rastersDir path : String) : String :=
  rastersDir ++ "/" ++ rasterImgName path

def add_raster_layer (warp : GdalDataset → GdalDataset) (doc : List XmlNode)
    (path : String) (props : Props) (rastersDir : String) (src : RasterSource) :
    Except String (List XmlNode × String) :=
  if ¬ src.rlayerValid then .error ("Cannot load raster " ++ path)
  else
    match src.gdalDs with
    | none => .error ("Cannot open raster " ++ path)
    | some ds =>
      let ds2 := (ensureGeographic warp ds).1
      let b := computeBounds ds2
      let base := pathBase path
      let label := ((props.get "folder_name").filter (· ≠ "")).getD
                   (((props.get "name").filter (· ≠ "")).getD base)
      .ok (doc ++ [groundOverlayNode label (rasterImgName path) b],
           rasterImgPath rastersDir path)

/-! ## Document Assembler and Package Writer (`Export2KML.run_export`) -/

/-- The recognized KML properties; combo texts are stored under the
lowercased property name. -/
def KML_PROPS : List String :=
  ["Name", "description", "timestamp", "begin", "end",
   "altitudeMode", "tessellate", "extrude", "visibility",
   "drawOrder", "icon"]

/-- Lines 392–397: read each property's combo text; keep it (lowercased key)
when non-blank and not `<None>`. The UI never produces a `fields` entry. -/
def propsOfCombos (texts : List String) : Props :=
  { entries := (KML_PROPS.zip texts).filterMap (fun pt =>
      let t := pt.2.trim
      if t ≠ "" ∧ t ≠ "<None>" then some (pt.1.toLower, t) else none)
    fields := none }

/-- One row of the layer table: checked state, the layer's source path, its
eleven combo texts, and the data behind it (an openable vector source or a
raster source). -/
inductive Row where
  | vector (checked : Bool) (path : String) (texts : List String)
           (src : Option (VectorLayer Geometry))
  | raster (checked : Bool) (path : String) (texts : List String)
           (src : RasterSource)

def Row.checked : Row → Bool
  | .vector c _ _ _ => c
  | .raster c _ _ _ => c

def Row.path : Row → String
  | .vector _ p _ _ => p
  | .raster _ p _ _ => p

def Row.isRaster : Row → Bool
  | .vector _ _ _ _ => false
  | .raster _ _ _ _ => true

/-- Lines 380–383: number of checked raster rows. -/
def countCheckedRasters (rows : List Row) : Nat :=
  rows.countP (fun r => r.isRaster && r.checked)

/-- Mutable state of the export loop: Document children, collected image
paths, processed raster count, the percentages sent to the progress sink so
far, and the (enumerated) indices of the rows whose processing was
attempted. -/
structure ExpState where
  doc : List XmlNode
  collected : List String
  rasterCount : Nat
  progressCalls : List Nat
  attempted : List Nat

/-- Whether processing a checked row can succeed (failure depends only on
the row's own data: an unopenable vector or an invalid/unopenable raster
raises). -/
def Row.ok : Row → Bool
  | .vector _ _ _ src => src.isSome
  | .raster _ _ _ src => src.rlayerValid && src.gdalDs.isSome

/-- The message of the `RuntimeError` a failing row raises. -/
def Row.errMsg : Row → String
  | .vector _ p _ _ => "Cannot open vector " ++ p
  | .raster _ p _ src =>
      if ¬ src.rlayerValid then "Cannot load raster " ++ p
      else "Cannot open raster " ++ p

/-- Body of the layer loop (lines 387–411) for one checked row. `hp` is
whether a progress bar is present, `total` the checked-raster count. -/
def processRow (warp : GdalDataset → GdalDataset) (hp : Bool) (total : Nat)
    (rastersDir : String) (row : Row) (st : ExpState) : Except String ExpState :=
  match row with
  | .vector _ path texts src =>
    match src with
    | none => throw ("Cannot open vector " ++ path)
    | some layer =>
      return { st with doc := add_vector_layer st.doc path (propsOfCombos texts) layer }
  | .raster _ path texts src =>
    match add_raster_layer warp st.doc path (propsOfCombos texts) rastersDir src with
    | .error e => .error e
    | .ok (doc2, imgPath) =>
      let rc := st.rasterCount + 1
      let calls := if hp && total ≠ 0 then [rc * 100 / total] else []
      .ok { st with doc := doc2, collected := st.collected ++ [imgPath],
                    rasterCount := rc, progressCalls := st.progressCalls ++ calls }

/-- The layer loop over the enumerated rows: skip unchecked rows, stop at
the first error keeping the state reached so far. -/
def exportLoop (warp : GdalDataset → GdalDataset) (hp : Bool) (total : Nat)
    (rastersDir : String) : List (Nat × Row) → ExpState → ExpState × Option String
  | [], st => (st, none)
  | (i, r) :: rest, st =>
    if r.checked then
      let st1 := { st with attempted := st.attempted ++ [i] }
      match processRow warp hp total rastersDir r st1 with
      | .ok st2 => exportLoop warp hp total rastersDir rest st2
      | .error e => (st1, some e)
    else exportLoop warp hp total rastersDir rest st

/-- The final artifact at the output path: either the serialized document
moved there, or a compressed zip of `(archive name, source file)` entries. -/
inductive Artifact where
  | kmlFile (outPath : String) (docFile : String)
  | kmz (outPath : String) (entries : List (String × String))

/-- Everything observable about one `run_export` call. -/
structure RunResult where
  artifact : Option Artifact
  errorMsg : Option String
  progressCalls : List Nat
  attempted : List Nat

/-- The working directory `tempfile.mkdtemp()` returns, fresh per run. -/
def tmpDir : String := "/tmp/run"

/-- Model of `Export2KML.run_export`: check the output path, reset the progress bar
to 0 when present, process every checked row in order aborting on the first
error, then either zip `doc.kml` plus the collected images (any raster) or
move the document to the output path (no raster). Any raised error is
surfaced as a single message and no artifact is produced. -/
def run_export (outPath : Option String) (hp : Bool) (warp : GdalDataset → GdalDataset)
    (rows : List Row) : RunResult :=
  match outPath with
  | none => { artifact := none, errorMsg := some "Please select an output file",
              progressCalls := [], attempted := [] }
  | some out =>
    let rastersDir := tmpDir ++ "/rasters"
    let total := countCheckedRasters rows
    let init : ExpState :=
      (ExpState.mk [] [] 0 (if hp then [0] else []) [])
    let (st, err) := exportLoop warp hp total rastersDir rows.enum init
    match err with
    | some e => { artifact := none, errorMsg := some e,
                  progressCalls := st.progressCalls, attempted := st.attempted }
    | none =>
      let kmlFile := tmpDir ++ "/doc.kml"
      let art :=
        if st.collected ≠ [] then
          Artifact.kmz out (("doc.kml", kmlFile) ::
            st.collected.map (fun f => ("rasters/" ++ basename f, f)))
        else Artifact.kmlFile out kmlFile
      { artifact := some art, errorMsg := none,
        progressCalls := st.progressCalls, attempted := st.attempted }

/-! ## Derived descriptions of a run (used to state the claims) -/

/-- The image paths a run over these rows produces: one PNG per checked
raster row, named after the raster's base name, in row order. -/
def checkedRasterImgs (rastersDir : String) (rows : List Row) : List String :=
  rows.filterMap (fun r =>
    if r.isRaster && r.checked then some (rasterImgPath rastersDir r.path) else none)

/-- The percentages the raster branch of the loop sends to the progress
sink, starting from a processed-raster count `rc`. -/
def pctCalls (hp : Bool) (total : Nat) : Nat → List Row → List Nat
  | _, [] => []
  | rc, r :: rest =>
    if r.isRaster && r.checked then
      (if hp && total ≠ 0 then [(rc + 1) * 100 / total] else []) ++
        pctCalls hp total (rc + 1) rest
    else pctCalls hp total rc rest

/-! ## Concrete fixtures (witness inputs) -/

/-- A two-feature vector layer: field `id` holds "A" then "B". -/
def sampleLayer : VectorLayer Geometry :=
  { schema := ["id", "num"]
    features :=
      [ { vals := [("id", .vStr "A"), ("num", .vInt 7)]
          geom := some (.simple (.point ⟨1, 2, none⟩)) }
      , { vals := [("id", .vStr "B"), ("num", .vInt 8)]
          geom := none } ] }

/-- Bindings: `name` resolves the `id` field, `description` is a literal. -/
def sampleProps : Props :=
  { entries := [("name", "id"), ("description", "lit")], fields := some ["num", "ghost"] }

/-- The first feature of `sampleLayer`. -/
def sampleFeat : Feature Geometry :=
  { vals := [("id", .vStr "A"), ("num", .vInt 7)]
    geom := some (.simple (.point ⟨1, 2, none⟩)) }

/-- Bindings whose only requested extended field is absent from the schema. -/
def ghostProps : Props :=
  { entries := [], fields := some ["ghost"] }

/-- A dataset already in the geographic reference, 4×6 pixels, origin
(10, 50), pixel size 1/2 × −1/2, with a WKT text that differs from the
target's text. -/
def sampleDs : GdalDataset :=
  { srs := { wkt := "GEOGCS[\"WGS 1984\"]", normForm := "EPSG:4326" }
    gt0 := 10, gt1 := 1/2, gt3 := 50, gt5 := -1/2, xsize := 4, ysize := 6 }

/-- A checked, loadable raster row over `sampleDs`. -/
def sampleRasterRow : Row :=
  .raster true "/data/r.tif" [] { rlayerValid := true, gdalDs := some sampleDs }

/-- A checked, openable vector row over `sampleLayer`. -/
def sampleVectorRow : Row :=
  .vector true "/data/v.shp" [] (some sampleLayer)

/-- A checked vector row whose source cannot be opened. -/
def badVectorRow : Row :=
  .vector true "/data/broken.shp" [] none

/-! # Theorems -/

theorem tag_placemarkOfFeature (avail : List String) (props : Props) (f : Feature Geometry) :
    (placemarkOfFeature avail props f).tag = "Placemark" := by
  simp only [placemarkOfFeature]
  rfl

theorem children_placemarkOfFeature (avail : List String) (props : Props)
    (f : Feature Geometry) :
    (placemarkOfFeature avail props f).children =
      (if props.truthy "name" then
        [XmlNode.mk "name" [] (some (resolveBinding avail f ((props.get "name").getD ""))) []]
      else []) ++
      (if props.truthy "description" then
        [XmlNode.mk "description" []
          (some (resolveBinding avail f ((props.get "description").getD ""))) []]
      else []) ++
      (if props.fieldsTruthy then
        [XmlNode.mk "ExtendedData" [] none
          ((props.fields.getD []).filterMap (fun fld =>
            if fld ∈ avail then some (dataNode fld (f.getField fld).pyStr) else none))]
      else []) ++
      (match f.geom with
       | none => []
       | some g => [exportToKML g]) := by
  simp only [placemarkOfFeature]
  rfl

/-- C2. Placemark name/description binding resolution: when the `name`
(resp. `description`) binding is set, a binding equal to a schema field name
yields the feature's stringified field value as the element text, and a
binding matching no schema field yields the binding text itself, unchanged,
as a literal. -/
theorem c2_binding_resolution (avail : List String) (props : Props) (f : Feature Geometry) :
    (∀ nm, props.get "name" = some nm → nm ≠ "" →
      (placemarkOfFeature avail props f).childText "name" =
        some (if nm ∈ avail then (f.getField nm).pyStr else nm)) ∧
    (∀ d, props.get "description" = some d → d ≠ "" →
      (placemarkOfFeature avail props f).childText "description" =
        some (if d ∈ avail then (f.getField d).pyStr else d)) := by
  constructor
  · intro nm hget hne
    have ht : props.truthy "name" = true := by
      simp [Props.truthy, hget, hne]
    simp [XmlNode.childText, XmlNode.childNamed, children_placemarkOfFeature, ht, hget,
      XmlNode.tag, List.find?, XmlNode.text, resolveBinding]
  · intro d hget hne
    have ht : props.truthy "description" = true := by
      simp [Props.truthy, hget, hne]
    by_cases hn : props.truthy "name" <;>
      simp [XmlNode.childText, XmlNode.childNamed, children_placemarkOfFeature, hn, ht, hget,
        XmlNode.tag, List.find?, XmlNode.text, resolveBinding]

/-- Witness for C2 on `sampleLayer`'s first feature: `name` bound to the
`id` field reads "A"; `description` bound to the literal "lit" stays "lit". -/
theorem c2_binding_resolution_witness :
    (placemarkOfFeature sampleLayer.schema sampleProps sampleFeat).childText "name" = some "A" ∧
    (placemarkOfFeature sampleLayer.schema sampleProps sampleFeat).childText "description" =
      some "lit" := by
  have h := c2_binding_resolution sampleLayer.schema sampleProps sampleFeat
  constructor
  · have := h.1 "id" (by decide) (by decide)
    simpa [sampleLayer, sampleProps, Feature.getField, Value.pyStr] using this
  · have := h.2 "lit" (by decide) (by decide)
    simpa [sampleLayer, sampleProps] using this

/-- C4. Placemark count and order: the Folder emitted for a vector layer
with N features contains exactly the N Placemarks obtained from the features
in native iteration order — no re-sorting, filtering or duplication. -/
theorem c4_placemark_count_order (path : String) (props : Props)
    (layer : VectorLayer Geometry) :
    placemarksOf (folderOfLayer path props layer) =
      layer.features.map (placemarkOfFeature layer.schema props) ∧
    (placemarksOf (folderOfLayer path props layer)).length = layer.features.length := by
  have hmain : placemarksOf (folderOfLayer path props layer) =
      layer.features.map (placemarkOfFeature layer.schema props) := by
    simp only [placemarksOf, folderOfLayer, XmlNode.children]
    rw [List.filter_cons_of_neg (by simp [XmlNode.tag])]
    rw [List.filter_map]
    rw [List.filter_eq_self.mpr]
    intro pm hpm
    simp [Function.comp, tag_placemarkOfFeature]
  exact ⟨hmain, by rw [hmain]; simp⟩

theorem tag_exportToKML (g : Geometry) :
    (exportToKML g).tag = "Point" ∨ (exportToKML g).tag = "LineString" ∨
    (exportToKML g).tag = "Polygon" ∨ (exportToKML g).tag = "MultiGeometry" := by
  cases g with
  | simple s => cases s <;> simp [exportToKML, kmlOfSimple, XmlNode.tag]
  | multi ps => simp [exportToKML, XmlNode.tag]

theorem placemarkOfFeature_eq (avail : List String) (props : Props) (f : Feature Geometry) :
    placemarkOfFeature avail props f = XmlNode.mk "Placemark" [] none
      ((if props.truthy "name" then
        [XmlNode.mk "name" [] (some (resolveBinding avail f ((props.get "name").getD ""))) []]
      else []) ++
      (if props.truthy "description" then
        [XmlNode.mk "description" []
          (some (resolveBinding avail f ((props.get "description").getD ""))) []]
      else []) ++
      (if props.fieldsTruthy then
        [XmlNode.mk "ExtendedData" [] none
          ((props.fields.getD []).filterMap (fun fld =>
            if fld ∈ avail then some (dataNode fld (f.getField fld).pyStr) else none))]
      else []) ++
      (match f.geom with
       | none => []
       | some g => [exportToKML g])) :=
  rfl

theorem extendedDataOf_placemark (avail : List String) (props : Props) (f : Feature Geometry) :
    extendedDataOf (placemarkOfFeature avail props f) =
      if props.fieldsTruthy then
        [XmlNode.mk "ExtendedData" [] none
          ((props.fields.getD []).filterMap (fun fld =>
            if fld ∈ avail then some (dataNode fld (f.getField fld).pyStr) else none))]
      else [] := by
  have hgeom : List.filter (fun c => c.tag = "ExtendedData")
      (match f.geom with | none => [] | some g => [exportToKML g]) = [] := by
    rcases f.geom with _ | g
    · rfl
    · rcases tag_exportToKML g with h | h | h | h <;>
        simp [List.filter_cons, List.filter_nil, h]
  rw [extendedDataOf, placemarkOfFeature_eq]
  simp only [XmlNode.children, List.filter_append, hgeom, List.append_nil]
  by_cases hn : props.truthy "name" <;> by_cases hd : props.truthy "description" <;>
    by_cases hf : props.fieldsTruthy <;>
    simp [hn, hd, hf, XmlNode.tag]

theorem data_nodes_filterMap (avail : List String) (f : Feature Geometry) (F : List String) :
    F.filterMap (fun fld =>
        if fld ∈ avail then some (dataNode fld (f.getField fld).pyStr) else none) =
      (F.filter (fun fld => fld ∈ avail)).map
        (fun fld => dataNode fld (f.getField fld).pyStr) := by
  induction F with
  | nil => simp
  | cons a F ih => by_cases ha : a ∈ avail <;> simp [ha, ih]

theorem dataEntriesOf_placemark (avail : List String) (props : Props) (f : Feature Geometry)
    (F : List String) (hF : props.fields = some F) :
    dataEntriesOf (placemarkOfFeature avail props f) =
      (F.filter (fun fld => fld ∈ avail)).map (fun fld => (fld, (f.getField fld).pyStr)) := by
  rcases hemp : F with _ | ⟨a, F'⟩
  · have hf : props.fieldsTruthy = false := by
      simp [Props.fieldsTruthy, hF, hemp]
    simp [dataEntriesOf, extendedDataOf_placemark, hf]
  · rw [← hemp]
    have hf : props.fieldsTruthy = true := by
      simp [Props.fieldsTruthy, hF, hemp]
    rw [dataEntriesOf, extendedDataOf_placemark, if_pos hf, hF]
    simp only [Option.getD_some, List.flatMap_cons, List.flatMap_nil, List.append_nil,
      XmlNode.children, data_nodes_filterMap]
    rw [List.filterMap_map]
    rw [List.filterMap_eq_map_iff_forall_eq_some.mpr]
    intro fld _
    simp [Function.comp, dataNode, XmlNode.tag, XmlNode.childText, XmlNode.childNamed,
      XmlNode.children, List.find?, XmlNode.attrs, XmlNode.text]

/-- C5. Extended-attribute output: for a requested (duplicate-free)
field list F, exactly the subset of F present in the schema appears as Data
name/value entries, in order, each present field exactly once with the
feature's stringified raw value; requested fields absent from the schema
produce no entry and no error. -/
theorem c5_extended_attrs (avail : List String) (props : Props) (f : Feature Geometry)
    (F : List String) (hF : props.fields = some F) (hnd : F.Nodup) :
    dataEntriesOf (placemarkOfFeature avail props f) =
      (F.filter (fun fld => fld ∈ avail)).map (fun fld => (fld, (f.getField fld).pyStr)) ∧
    (∀ fld ∈ F, fld ∈ avail →
      ((dataEntriesOf (placemarkOfFeature avail props f)).map Prod.fst).count fld = 1) ∧
    (∀ fld ∈ F, fld ∉ avail →
      fld ∉ (dataEntriesOf (placemarkOfFeature avail props f)).map Prod.fst) := by
  have hmain := dataEntriesOf_placemark avail props f F hF
  have hfst : (dataEntriesOf (placemarkOfFeature avail props f)).map Prod.fst =
      F.filter (fun fld => fld ∈ avail) := by
    rw [hmain, List.map_map]
    simp [Function.comp_def]
  refine ⟨hmain, ?_, ?_⟩
  · intro fld hmem hav
    rw [hfst]
    exact List.count_eq_one_of_mem (hnd.filter _) (by simp [List.mem_filter, hmem, hav])
  · intro fld hmem hav
    rw [hfst]
    simp [List.mem_filter, hav]

/-- Witness for C5: on `sampleFeat` with requested fields `["num","ghost"]`,
only `num` (present in the schema) appears, once, stringified to "7". -/
theorem c5_extended_attrs_witness :
    dataEntriesOf (placemarkOfFeature sampleLayer.schema sampleProps sampleFeat) =
      [("num", "7")] := by
  have h := (c5_extended_attrs sampleLayer.schema sampleProps sampleFeat
    ["num", "ghost"] (by decide) (by decide)).1
  simpa [sampleLayer, sampleProps, sampleFeat, Feature.getField, Value.pyStr] using h

/-- C10. Whenever the bindings carry a non-empty `fields` list, the
Placemark contains an `ExtendedData` element — even when none of the
requested fields exists in the schema, in which case the element is present
with zero Data children. -/
theorem c10_extended_data_presence (avail : List String) (props : Props)
    (f : Feature Geometry) (F : List String) (hF : props.fields = some F) (hne : F ≠ []) :
    extendedDataOf (placemarkOfFeature avail props f) =
      [XmlNode.mk "ExtendedData" [] none
        ((F.filter (fun fld => fld ∈ avail)).map
          (fun fld => dataNode fld (f.getField fld).pyStr))] ∧
    ((∀ fld ∈ F, fld ∉ avail) →
      extendedDataOf (placemarkOfFeature avail props f) =
        [XmlNode.mk "ExtendedData" [] none []]) := by
  have hf : props.fieldsTruthy = true := by
    simp [Props.fieldsTruthy, hF]
    exact hne
  have hmain : extendedDataOf (placemarkOfFeature avail props f) =
      [XmlNode.mk "ExtendedData" [] none
        ((F.filter (fun fld => fld ∈ avail)).map
          (fun fld => dataNode fld (f.getField fld).pyStr))] := by
    rw [extendedDataOf_placemark, if_pos hf, hF]
    simp [data_nodes_filterMap]
  refine ⟨hmain, fun habs => ?_⟩
  rw [hmain]
  have : F.filter (fun fld => fld ∈ avail) = [] := by
    rw [List.filter_eq_nil_iff]
    intro fld hmem
    simp [habs fld hmem]
  rw [this, List.map_nil]

/-- Witness for C10: requesting only the absent field `ghost` still yields
an `ExtendedData` element, with zero Data children. -/
theorem c10_extended_data_presence_witness :
    extendedDataOf (placemarkOfFeature sampleLayer.schema ghostProps sampleFeat) =
      [XmlNode.mk "ExtendedData" [] none []] := by
  exact (c10_extended_data_presence sampleLayer.schema ghostProps sampleFeat
    ["ghost"] (by decide) (by decide)).2 (by decide)

theorem tupleCountList_nil : tupleCountList [] = 0 := by simp [tupleCountList]

theorem tupleCountList_notTuple (t : String) (a : List (String × String)) (tx : Option String)
    (cs rest : List XmlNode) (h : t ≠ "coordTuple") :
    tupleCountList (XmlNode.mk t a tx cs :: rest) = tupleCountList cs + tupleCountList rest := by
  simp [tupleCountList, h]

theorem tupleCountList_tuple (a : List (String × String)) (tx : Option String)
    (cs rest : List XmlNode) :
    tupleCountList (XmlNode.mk "coordTuple" a tx cs :: rest) =
      1 + tupleCountList cs + tupleCountList rest := by
  simp [tupleCountList]

theorem tupleCountList_coordTuples (cs : List Coord) :
    tupleCountList (cs.map (fun c => XmlNode.mk "coordTuple" [] (some (coordText c)) [])) =
      cs.length := by
  induction cs with
  | nil => simp [tupleCountList]
  | cons c cs ih =>
    rw [List.map_cons, tupleCountList_tuple, tupleCountList_nil, ih, List.length_cons]
    omega

theorem tupleCount_coordinatesNode (cs : List Coord) :
    tupleCount (coordinatesNode cs) = cs.length := by
  rw [tupleCount, coordinatesNode, tupleCountList_notTuple _ _ _ _ _ (by decide),
    tupleCountList_nil, tupleCountList_coordTuples]
  omega

theorem tupleCount_kmlOfSimple (s : SimpleGeometry) :
    tupleCount (kmlOfSimple s) = s.coordCount := by
  cases s with
  | point c =>
    rw [kmlOfSimple, tupleCount, SimpleGeometry.coordCount,
      tupleCountList_notTuple _ _ _ _ _ (by decide), tupleCountList_nil]
    have := tupleCount_coordinatesNode [c]
    rw [tupleCount] at this
    simp only [List.length_singleton] at this
    omega
  | lineString cs =>
    rw [kmlOfSimple, tupleCount, SimpleGeometry.coordCount,
      tupleCountList_notTuple _ _ _ _ _ (by decide), tupleCountList_nil]
    have := tupleCount_coordinatesNode cs
    rw [tupleCount] at this
    omega
  | polygon outer inners =>
    have houter := tupleCount_coordinatesNode outer
    rw [tupleCount] at houter
    have hinners : tupleCountList (inners.map (fun ring =>
        XmlNode.mk "innerBoundaryIs" [] none
          [XmlNode.mk "LinearRing" [] none [coordinatesNode ring]])) =
        (inners.map List.length).sum := by
      induction inners with
      | nil => simp [tupleCountList]
      | cons r rs ih =>
        rw [List.map_cons, tupleCountList_notTuple _ _ _ _ _ (by decide),
          tupleCountList_notTuple _ _ _ _ _ (by decide), tupleCountList_nil, ih]
        have := tupleCount_coordinatesNode r
        rw [tupleCount] at this
        rw [List.map_cons, List.sum_cons]
        omega
    rw [kmlOfSimple, tupleCount, SimpleGeometry.coordCount,
      tupleCountList_notTuple _ _ _ _ _ (by decide),
      tupleCountList_notTuple _ _ _ _ _ (by decide),
      tupleCountList_notTuple _ _ _ _ _ (by decide), tupleCountList_nil, hinners]
    omega

theorem tupleCount_exportToKML (g : Geometry) :
    tupleCount (exportToKML g) = g.coordCount := by
  cases g with
  | simple s => simpa [exportToKML] using tupleCount_kmlOfSimple s
  | multi parts =>
    have hparts : tupleCountList (parts.map kmlOfSimple) =
        (parts.map SimpleGeometry.coordCount).sum := by
      induction parts with
      | nil => simp [tupleCountList]
      | cons p ps ih =>
        have hp := tupleCount_kmlOfSimple p
        rw [tupleCount] at hp
        cases hk : kmlOfSimple p with
        | mk t a tx cs =>
          rw [hk] at hp
          have ht : t ≠ "coordTuple" := by
            have := tag_exportToKML (.simple p)
            rw [exportToKML, hk] at this
            simp only [XmlNode.tag] at this
            rcases this with h | h | h | h <;> (rw [h]; decide)
          rw [List.map_cons, hk, tupleCountList_notTuple _ _ _ _ _ ht, ih,
            List.map_cons, List.sum_cons]
          rw [tupleCountList_notTuple _ _ _ _ _ ht, tupleCountList_nil] at hp
          omega
    rw [exportToKML, tupleCount, tupleCountList_notTuple _ _ _ _ _ (by decide),
      tupleCountList_nil, hparts, Geometry.coordCount]
    omega

theorem kmlGType_exportToKML (g : Geometry) :
    kmlGType (exportToKML g) = some g.gtype := by
  cases g with
  | simple s =>
    cases s <;> simp [exportToKML, kmlOfSimple, kmlGType, XmlNode.tag, Geometry.gtype,
      SimpleGeometry.gtype]
  | multi ps => simp [exportToKML, kmlGType, XmlNode.tag, Geometry.gtype]

theorem geometryChildrenOf_placemark (avail : List String) (props : Props)
    (f : Feature Geometry) :
    geometryChildrenOf (placemarkOfFeature avail props f) =
      (match f.geom with
       | none => []
       | some g => [exportToKML g]) := by
  have hgeom : List.filter (fun c => c.tag ∈ geomTags)
      (match f.geom with | none => [] | some g => [exportToKML g]) =
      (match f.geom with | none => [] | some g => [exportToKML g]) := by
    rcases f.geom with _ | g
    · rfl
    · rcases tag_exportToKML g with h | h | h | h <;>
        simp [List.filter_cons, List.filter_nil, h, geomTags]
  rw [geometryChildrenOf, placemarkOfFeature_eq]
  simp only [XmlNode.children, List.filter_append, hgeom]
  by_cases hn : props.truthy "name" <;> by_cases hd : props.truthy "description" <;>
    by_cases hf : props.fieldsTruthy <;>
    simp [hn, hd, hf, XmlNode.tag, geomTags]

/-- C6. Geometry translation: a feature with null geometry gets a
Placemark with no geometry subtree; a non-null geometry is attached as one
translated subtree whose geometry type and coordinate count equal those of
the source geometry (coordinates carried over unaltered, no reprojection). -/
theorem c6_geometry_translation (avail : List String) (props : Props) (f : Feature Geometry) :
    (f.geom = none → geometryChildrenOf (placemarkOfFeature avail props f) = []) ∧
    (∀ g, f.geom = some g →
      geometryChildrenOf (placemarkOfFeature avail props f) = [exportToKML g] ∧
      kmlGType (exportToKML g) = some g.gtype ∧
      tupleCount (exportToKML g) = g.coordCount) := by
  constructor
  · intro hnone
    rw [geometryChildrenOf_placemark, hnone]
  · intro g hg
    exact ⟨by rw [geometryChildrenOf_placemark, hg],
      kmlGType_exportToKML g, tupleCount_exportToKML g⟩

/-- Witness for C6 on `sampleFeat` (a point geometry): one translated
subtree of type point with one coordinate tuple. -/
theorem c6_geometry_translation_witness :
    geometryChildrenOf (placemarkOfFeature sampleLayer.schema sampleProps sampleFeat) =
      [exportToKML (.simple (.point ⟨1, 2, none⟩))] ∧
    kmlGType (exportToKML (.simple (.point ⟨1, 2, none⟩))) = some .point ∧
    tupleCount (exportToKML (.simple (.point ⟨1, 2, none⟩))) = 1 := by
  exact (c6_geometry_translation sampleLayer.schema sampleProps sampleFeat).2
    (.simple (.point ⟨1, 2, none⟩)) rfl

/-- C3. Raster geographic bounds: with the transform of the dataset the
Coordinate Reprojector settles on, `north` is the transform's origin-y,
`west` its origin-x, `east = west + pixel_width · raster_width`,
`south = north + pixel_height · raster_height`; and whenever that
geographic-reference transform is non-degenerate and north-up
(positive pixel width, negative pixel height, positive sizes — the
convention the spec states for any valid, non-degenerate extent, whatever
the native reference was), `west < east` and `south < north`. -/
theorem c3_raster_bounds (warp : GdalDataset → GdalDataset) (ds : GdalDataset) :
    (computeBounds (ensureGeographic warp ds).1).north = (ensureGeographic warp ds).1.gt3 ∧
    (computeBounds (ensureGeographic warp ds).1).west = (ensureGeographic warp ds).1.gt0 ∧
    (computeBounds (ensureGeographic warp ds).1).east =
      (computeBounds (ensureGeographic warp ds).1).west +
        (ensureGeographic warp ds).1.gt1 * ((ensureGeographic warp ds).1.xsize : ℚ) ∧
    (computeBounds (ensureGeographic warp ds).1).south =
      (computeBounds (ensureGeographic warp ds).1).north +
        (ensureGeographic warp ds).1.gt5 * ((ensureGeographic warp ds).1.ysize : ℚ) ∧
    (0 < (ensureGeographic warp ds).1.gt1 → (ensureGeographic warp ds).1.gt5 < 0 →
      0 < (ensureGeographic warp ds).1.xsize → 0 < (ensureGeographic warp ds).1.ysize →
      (computeBounds (ensureGeographic warp ds).1).west <
          (computeBounds (ensureGeographic warp ds).1).east ∧
        (computeBounds (ensureGeographic warp ds).1).south <
          (computeBounds (ensureGeographic warp ds).1).north) := by
  refine ⟨rfl, rfl, rfl, rfl, ?_⟩
  intro h1 h5 hx hy
  set d := (ensureGeographic warp ds).1
  have hxq : (0 : ℚ) < (d.xsize : ℚ) := by exact_mod_cast hx
  have hyq : (0 : ℚ) < (d.ysize : ℚ) := by exact_mod_cast hy
  constructor
  · have : 0 < d.gt1 * (d.xsize : ℚ) := mul_pos h1 hxq
    simp only [computeBounds]
    linarith
  · have : d.gt5 * (d.ysize : ℚ) < 0 := mul_neg_of_neg_of_pos h5 hyq
    simp only [computeBounds]
    linarith

/-- Witness for C3 on `sampleDs` (already geographic, 4×6 pixels, origin
(10, 50), pixel size 1/2 × −1/2): bounds are north 50, west 10, east 12,
south 47, satisfying west < east and south < north. -/
theorem c3_raster_bounds_witness :
    (computeBounds (ensureGeographic id sampleDs).1).west <
        (computeBounds (ensureGeographic id sampleDs).1).east ∧
      (computeBounds (ensureGeographic id sampleDs).1).south <
        (computeBounds (ensureGeographic id sampleDs).1).north := by
  exact (c3_raster_bounds id sampleDs).2.2.2.2
    (by norm_num [ensureGeographic, sampleDs, SRS.isSame, epsg4326])
    (by norm_num [ensureGeographic, sampleDs, SRS.isSame, epsg4326])
    (by norm_num [ensureGeographic, sampleDs, SRS.isSame, epsg4326])
    (by norm_num [ensureGeographic, sampleDs, SRS.isSame, epsg4326])

/-- C7. The Coordinate Reprojector decides by a full
spatial-reference-definition comparison (never the textual form): if the
raster's reference has the target's semantic content the raster's own
dataset and native transform are used unchanged and no warp is issued —
whatever the two definition texts look like — otherwise the transform comes
from the warped view, and every warp issued is a virtual VRT with an empty
destination name (no permanent file), targeting EPSG:4326. -/
theorem c7_reprojector_equality (warp : GdalDataset → GdalDataset) (ds : GdalDataset) :
    (∀ w w' n, (SRS.mk w n).isSame epsg4326 = (SRS.mk w' n).isSame epsg4326) ∧
    (ds.srs.normForm = epsg4326.normForm →
      ensureGeographic warp ds = (ds, [])) ∧
    (ds.srs.normForm ≠ epsg4326.normForm →
      ensureGeographic warp ds =
        (warp ds, [{ dstName := "", format := "VRT", dstSRS := "EPSG:4326" }])) ∧
    (∀ c ∈ (ensureGeographic warp ds).2,
      c.dstName = "" ∧ c.format = "VRT" ∧ c.dstSRS = "EPSG:4326") := by
  refine ⟨fun w w' n => rfl, ?_, ?_, ?_⟩
  · intro h
    rw [ensureGeographic, if_pos]
    simp [SRS.isSame, h]
  · intro h
    rw [ensureGeographic, if_neg]
    simp [SRS.isSame, h]
  · intro c hc
    rw [ensureGeographic] at hc
    by_cases h : ds.srs.isSame epsg4326
    · rw [if_pos h] at hc
      simp at hc
    · rw [if_neg h] at hc
      simp at hc
      simp [hc]

/-- Witness for C7: `sampleDs`'s reference text differs from the target's
WKT, yet its semantic content is the target's, so the raster is used
unchanged with no warp call. -/
theorem c7_reprojector_equality_witness :
    ensureGeographic id sampleDs = (sampleDs, []) ∧
    sampleDs.srs.wkt ≠ epsg4326.wkt := by
  refine ⟨(c7_reprojector_equality id sampleDs).2.1 (by decide), by decide⟩

theorem checkedRasterImgs_cons (rdir : String) (r : Row) (rows : List Row) :
    checkedRasterImgs rdir (r :: rows) =
      (if r.isRaster && r.checked then [rasterImgPath rdir r.path] else []) ++
        checkedRasterImgs rdir rows := by
  by_cases h : (r.isRaster && r.checked) = true
  · rw [if_pos h]
    simp only [checkedRasterImgs, List.filterMap_cons]
    rw [if_pos h]
    simp
  · rw [if_neg h]
    simp only [checkedRasterImgs, List.filterMap_cons]
    rw [if_neg h]
    simp

theorem countCheckedRasters_cons (r : Row) (rows : List Row) :
    countCheckedRasters (r :: rows) =
      countCheckedRasters rows + if r.isRaster && r.checked then 1 else 0 := by
  simp [countCheckedRasters, List.countP_cons]

theorem length_checkedRasterImgs (rdir : String) (rows : List Row) :
    (checkedRasterImgs rdir rows).length = countCheckedRasters rows := by
  induction rows with
  | nil => rfl
  | cons r rows ih =>
    rw [checkedRasterImgs_cons, countCheckedRasters_cons, List.length_append, ih]
    by_cases h : r.isRaster && r.checked <;> simp [h]
    omega

theorem processRow_vector_some (warp : GdalDataset → GdalDataset) (hp : Bool) (total : Nat)
    (rdir : String) (c : Bool) (path : String) (texts : List String)
    (layer : VectorLayer Geometry) (st : ExpState) :
    processRow warp hp total rdir (.vector c path texts (some layer)) st =
      .ok { st with doc := add_vector_layer st.doc path (propsOfCombos texts) layer } :=
  rfl

theorem processRow_raster_some (warp : GdalDataset → GdalDataset) (hp : Bool) (total : Nat)
    (rdir : String) (c : Bool) (path : String) (texts : List String)
    (ds : GdalDataset) (st : ExpState) :
    processRow warp hp total rdir
        (.raster c path texts { rlayerValid := true, gdalDs := some ds }) st =
      .ok { st with
        doc := st.doc ++ [groundOverlayNode
          (((propsOfCombos texts).get "folder_name").filter (· ≠ "")|>.getD
            ((((propsOfCombos texts).get "name").filter (· ≠ "")).getD (pathBase path)))
          (rasterImgName path) (computeBounds (ensureGeographic warp ds).1)]
        collected := st.collected ++ [rasterImgPath rdir path]
        rasterCount := st.rasterCount + 1
        progressCalls := st.progressCalls ++
          (if hp && total ≠ 0 then [(st.rasterCount + 1) * 100 / total] else []) } := by
  simp [processRow, add_raster_layer]

theorem processRow_error_of_not_ok (warp : GdalDataset → GdalDataset) (hp : Bool) (total : Nat)
    (rdir : String) (r : Row) (st : ExpState) (h : r.ok = false) :
    processRow warp hp total rdir r st = .error r.errMsg := by
  cases r with
  | vector c path texts src =>
    rcases src with _ | layer
    · rfl
    · simp [Row.ok] at h
  | raster c path texts src =>
    obtain ⟨v, g⟩ := src
    simp only [Row.ok, Bool.and_eq_false_iff] at h
    rcases h with h | h
    · subst h
      simp [processRow, add_raster_layer, Row.errMsg]
    · rcases g with _ | ds
      · rcases v with _ | _
        · simp [processRow, add_raster_layer, Row.errMsg]
        · simp [processRow, add_raster_layer, Row.errMsg]
      · simp [Option.isSome] at h

/-- Master lemma for a stretch of the loop in which every checked row is
processable: no error, and collected images, progress calls, raster count
and attempted indices evolve as described. -/
theorem exportLoop_all_ok (warp : GdalDataset → GdalDataset) (hp : Bool) (total : Nat)
    (rdir : String) (l : List (Nat × Row)) (st : ExpState)
    (h : ∀ p ∈ l, (p.2 : Row).checked = true → (p.2 : Row).ok = true) :
    (exportLoop warp hp total rdir l st).2 = none ∧
    (exportLoop warp hp total rdir l st).1.collected =
      st.collected ++ checkedRasterImgs rdir (l.map Prod.snd) ∧
    (exportLoop warp hp total rdir l st).1.progressCalls =
      st.progressCalls ++ pctCalls hp total st.rasterCount (l.map Prod.snd) ∧
    (exportLoop warp hp total rdir l st).1.rasterCount =
      st.rasterCount + countCheckedRasters (l.map Prod.snd) ∧
    (exportLoop warp hp total rdir l st).1.attempted =
      st.attempted ++ (l.filter (fun p => (p.2 : Row).checked)).map Prod.fst := by
  induction l generalizing st with
  | nil =>
    simp [exportLoop, checkedRasterImgs, pctCalls, countCheckedRasters]
  | cons p rest ih =>
    obtain ⟨i, r⟩ := p
    have h' : ∀ p ∈ rest, (p.2 : Row).checked = true → (p.2 : Row).ok = true :=
      fun p hp' => h p (by simp [hp'])
    by_cases hc : r.checked = true
    · have hok : r.ok = true := h (i, r) (by simp) hc
      cases r with
      | vector c path texts src =>
        rcases src with _ | layer
        · simp [Row.ok] at hok
        · simp only [exportLoop, hc, if_true, processRow_vector_some]
          have hrec := ih (ExpState.mk
            (add_vector_layer st.doc path (propsOfCombos texts) layer)
            st.collected st.rasterCount st.progressCalls (st.attempted ++ [i])) h'
          simpa [checkedRasterImgs_cons, countCheckedRasters_cons, pctCalls,
            Row.isRaster, hc, List.append_assoc] using hrec
      | raster c path texts src =>
        obtain ⟨v, g⟩ := src
        simp only [Row.ok, Bool.and_eq_true, Option.isSome_iff_exists] at hok
        obtain ⟨hv, ds, hds⟩ := hok
        subst hv hds
        simp only [Row.checked] at hc
        subst hc
        simp only [exportLoop, Row.checked, if_true, processRow_raster_some]
        have hrec := ih (ExpState.mk
          (st.doc ++ [groundOverlayNode
            (((propsOfCombos texts).get "folder_name").filter (· ≠ "")|>.getD
              ((((propsOfCombos texts).get "name").filter (· ≠ "")).getD (pathBase path)))
            (rasterImgName path) (computeBounds (ensureGeographic warp ds).1)])
          (st.collected ++ [rasterImgPath rdir path])
          (st.rasterCount + 1)
          (st.progressCalls ++
            (if hp && total ≠ 0 then [(st.rasterCount + 1) * 100 / total] else []))
          (st.attempted ++ [i])) h'
        simpa [checkedRasterImgs_cons, countCheckedRasters_cons, pctCalls,
          Row.isRaster, Row.checked, Row.path, List.append_assoc,
          Nat.add_assoc, Nat.add_comm 1] using hrec
    · have hcf : r.checked = false := by simpa using hc
      simp only [exportLoop, hcf, Bool.false_eq_true, if_false]
      have hrec := ih st h'
      have hcr : (r.isRaster && r.checked) = false := by
        rw [hcf, Bool.and_false]
      simpa [checkedRasterImgs_cons, countCheckedRasters_cons, pctCalls, hcr, hcf]
        using hrec

/-- Master lemma for a loop whose first failing checked row is `bad`: the
loop stops with `bad`'s error message, having attempted exactly the checked
rows before `bad` and `bad` itself. -/
theorem exportLoop_first_error (warp : GdalDataset → GdalDataset) (hp : Bool) (total : Nat)
    (rdir : String) (la : List (Nat × Row)) (i : Nat) (bad : Row) (lb : List (Nat × Row))
    (st : ExpState)
    (hok : ∀ p ∈ la, (p.2 : Row).checked = true → (p.2 : Row).ok = true)
    (hc : bad.checked = true) (hbad : bad.ok = false) :
    (exportLoop warp hp total rdir (la ++ (i, bad) :: lb) st).2 = some bad.errMsg ∧
    (exportLoop warp hp total rdir (la ++ (i, bad) :: lb) st).1.attempted =
      st.attempted ++ (la.filter (fun p => (p.2 : Row).checked)).map Prod.fst ++ [i] := by
  induction la generalizing st with
  | nil =>
    simp only [List.nil_append, exportLoop, hc, if_true]
    rw [processRow_error_of_not_ok _ _ _ _ _ _ hbad]
    simp
  | cons p la' ih =>
    obtain ⟨j, r⟩ := p
    have h' : ∀ p ∈ la', (p.2 : Row).checked = true → (p.2 : Row).ok = true :=
      fun p hp' => hok p (by simp [hp'])
    by_cases hcr : r.checked = true
    · have hokr : r.ok = true := hok (j, r) (by simp) hcr
      cases r with
      | vector c path texts src =>
        rcases src with _ | layer
        · simp [Row.ok] at hokr
        · simp only [List.cons_append, exportLoop, hcr, if_true, processRow_vector_some]
          have hrec := ih (ExpState.mk
            (add_vector_layer st.doc path (propsOfCombos texts) layer)
            st.collected st.rasterCount st.progressCalls (st.attempted ++ [j])) h'
          simpa [hcr, List.append_assoc] using hrec
      | raster c path texts src =>
        obtain ⟨v, g⟩ := src
        simp only [Row.ok, Bool.and_eq_true, Option.isSome_iff_exists] at hokr
        obtain ⟨hv, ds, hds⟩ := hokr
        subst hv hds
        simp only [Row.checked] at hcr
        subst hcr
        simp only [List.cons_append, exportLoop, Row.checked, if_true, processRow_raster_some]
        have hrec := ih (ExpState.mk
          (st.doc ++ [groundOverlayNode
            (((propsOfCombos texts).get "folder_name").filter (· ≠ "")|>.getD
              ((((propsOfCombos texts).get "name").filter (· ≠ "")).getD (pathBase path)))
            (rasterImgName path) (computeBounds (ensureGeographic warp ds).1)])
          (st.collected ++ [rasterImgPath rdir path])
          (st.rasterCount + 1)
          (st.progressCalls ++
            (if hp && total ≠ 0 then [(st.rasterCount + 1) * 100 / total] else []))
          (st.attempted ++ [j])) h'
        simpa [Row.checked, List.append_assoc] using hrec
    · have hcf : r.checked = false := by simpa using hcr
      simp only [List.cons_append, exportLoop, hcf, Bool.false_eq_true, if_false]
      have hrec := ih st h'
      simpa [hcf] using hrec

/-- The progress sink is silent when there is no progress bar, and silent
past the initial reset when no checked raster row exists. -/
theorem exportLoop_progress_silent (warp : GdalDataset → GdalDataset) (hp : Bool) (total : Nat)
    (rdir : String) (l : List (Nat × Row)) (st : ExpState)
    (h : hp = false ∨ countCheckedRasters (l.map Prod.snd) = 0) :
    (exportLoop warp hp total rdir l st).1.progressCalls = st.progressCalls := by
  induction l generalizing st with
  | nil => simp [exportLoop]
  | cons p rest ih =>
    obtain ⟨i, r⟩ := p
    have h' : hp = false ∨ countCheckedRasters (rest.map Prod.snd) = 0 := by
      rcases h with h | h
      · exact Or.inl h
      · right
        simp only [List.map_cons, countCheckedRasters_cons] at h
        omega
    by_cases hcr : r.checked = true
    · by_cases hokr : r.ok = true
      · cases r with
        | vector c path texts src =>
          rcases src with _ | layer
          · simp [Row.ok] at hokr
          · simp only [exportLoop, hcr, if_true, processRow_vector_some]
            exact ih _ h'
        | raster c path texts src =>
          obtain ⟨v, g⟩ := src
          simp only [Row.ok, Bool.and_eq_true, Option.isSome_iff_exists] at hokr
          obtain ⟨hv, ds, hds⟩ := hokr
          subst hv hds
          simp only [Row.checked] at hcr
          subst hcr
          have hhp : hp = false := by
            rcases h with h | h
            · exact h
            · simp [List.map_cons, countCheckedRasters_cons, Row.isRaster, Row.checked] at h
          subst hhp
          simp only [exportLoop, Row.checked, if_true, processRow_raster_some,
            Bool.false_and, Bool.false_eq_true, if_false, List.append_nil]
          exact ih _ h'
      · have hbad : r.ok = false := by simpa using hokr
        simp only [exportLoop, hcr, if_true]
        rw [processRow_error_of_not_ok _ _ _ _ _ _ hbad]
    · have hcf : r.checked = false := by simpa using hcr
      simp only [exportLoop, hcf, Bool.false_eq_true, if_false]
      exact ih st h'

/-- Every percentage the loop sends stays within 0–100, as long as the
raster count processed so far plus the checked rasters still to come does
not exceed `total`. -/
theorem exportLoop_progress_le (warp : GdalDataset → GdalDataset) (hp : Bool) (total : Nat)
    (rdir : String) (l : List (Nat × Row)) (st : ExpState)
    (hcalls : ∀ v ∈ st.progressCalls, v ≤ 100)
    (hinv : st.rasterCount + countCheckedRasters (l.map Prod.snd) ≤ total) :
    ∀ v ∈ (exportLoop warp hp total rdir l st).1.progressCalls, v ≤ 100 := by
  induction l generalizing st with
  | nil => simpa [exportLoop] using hcalls
  | cons p rest ih =>
    obtain ⟨i, r⟩ := p
    by_cases hcr : r.checked = true
    · by_cases hokr : r.ok = true
      · cases r with
        | vector c path texts src =>
          rcases src with _ | layer
          · simp [Row.ok] at hokr
          · simp only [exportLoop, hcr, if_true, processRow_vector_some]
            refine ih _ hcalls ?_
            simp only [List.map_cons, countCheckedRasters_cons, Row.isRaster,
              Bool.false_and, if_false] at hinv
            simpa using hinv
        | raster c path texts src =>
          obtain ⟨v, g⟩ := src
          simp only [Row.ok, Bool.and_eq_true, Option.isSome_iff_exists] at hokr
          obtain ⟨hv, ds, hds⟩ := hokr
          subst hv hds
          simp only [Row.checked] at hcr
          subst hcr
          simp only [exportLoop, Row.checked, if_true, processRow_raster_some]
          have hinv' : st.rasterCount + 1 + countCheckedRasters (rest.map Prod.snd) ≤ total := by
            simp only [List.map_cons, countCheckedRasters_cons, Row.isRaster, Row.checked,
              Bool.and_self, if_true] at hinv
            omega
          refine ih _ ?_ hinv'
          intro v hv
          rcases List.mem_append.mp hv with hv | hv
          · exact hcalls v hv
          · rcases htot : (hp && total ≠ 0 : Bool) with _ | _
            · rw [htot] at hv
              simp at hv
            · rw [htot] at hv
              simp only [if_true, List.mem_singleton] at hv
              subst hv
              have htot0 : 0 < total := by
                have h2 := htot
                simp only [Bool.and_eq_true, decide_eq_true_eq, ne_eq] at h2
                omega
              calc (st.rasterCount + 1) * 100 / total
                  ≤ total * 100 / total := by
                    refine Nat.div_le_div_right (Nat.mul_le_mul_right 100 ?_)
                    omega
                _ = 100 := Nat.mul_div_cancel_left 100 htot0
      · have hbad : r.ok = false := by simpa using hokr
        simp only [exportLoop, hcr, if_true]
        rw [processRow_error_of_not_ok _ _ _ _ _ _ hbad]
        simpa using hcalls
    · have hcf : r.checked = false := by simpa using hcr
      simp only [exportLoop, hcf, Bool.false_eq_true, if_false]
      refine ih st hcalls ?_
      simp only [List.map_cons, countCheckedRasters_cons, hcf, Bool.and_false, if_false] at hinv
      omega

/-- C1. Output format selection: when every checked layer is
processable, a run with zero checked rasters produces the single serialized
document moved to the output path (no archive), and a run with at least one
checked raster produces a zip archive at the output path holding the
document under the internal name `doc.kml` plus one PNG per checked raster
under `rasters/<basename>`. -/
theorem c1_format_selection (out : String) (hp : Bool) (warp : GdalDataset → GdalDataset)
    (rows : List Row) (h : ∀ r ∈ rows, r.checked = true → r.ok = true) :
    (run_export (some out) hp warp rows).errorMsg = none ∧
    (countCheckedRasters rows = 0 →
      (run_export (some out) hp warp rows).artifact =
        some (.kmlFile out (tmpDir ++ "/doc.kml"))) ∧
    (countCheckedRasters rows ≠ 0 →
      (run_export (some out) hp warp rows).artifact =
        some (.kmz out (("doc.kml", tmpDir ++ "/doc.kml") ::
          (checkedRasterImgs (tmpDir ++ "/rasters") rows).map
            (fun f => ("rasters/" ++ basename f, f))))) ∧
    (checkedRasterImgs (tmpDir ++ "/rasters") rows).length = countCheckedRasters rows := by
  have henum : ∀ p ∈ rows.enum, (p.2 : Row).checked = true → (p.2 : Row).ok = true :=
    fun p hp' => h p.2 (List.snd_mem_of_mem_enum hp')
  have hloop := exportLoop_all_ok warp hp (countCheckedRasters rows) (tmpDir ++ "/rasters")
    rows.enum (ExpState.mk [] [] 0 (if hp then [0] else []) []) henum
  rw [List.enum_map_snd] at hloop
  rcases hE : exportLoop warp hp (countCheckedRasters rows) (tmpDir ++ "/rasters")
      rows.enum (ExpState.mk [] [] 0 (if hp then [0] else []) []) with ⟨st, err⟩
  rw [hE] at hloop
  obtain ⟨he, hcol, -, -, -⟩ := hloop
  simp only at he hcol
  subst he
  simp only [List.nil_append] at hcol
  refine ⟨?_, ?_, ?_, length_checkedRasterImgs _ _⟩
  · simp [run_export, hE]
  · intro hzero
    have himgs : checkedRasterImgs (tmpDir ++ "/rasters") rows = [] := by
      have := length_checkedRasterImgs (tmpDir ++ "/rasters") rows
      rw [hzero] at this
      exact List.length_eq_zero.mp this
    have hcolnil : st.collected = [] := by rw [hcol, himgs]
    simp [run_export, hE, hcolnil]
  · intro hnz
    have himgsne : checkedRasterImgs (tmpDir ++ "/rasters") rows ≠ [] := by
      intro hn
      have := length_checkedRasterImgs (tmpDir ++ "/rasters") rows
      rw [hn] at this
      exact hnz this.symm
    have hcolne : st.collected ≠ [] := by
      rw [hcol]
      exact himgsne
    simp [run_export, hE, hcolne, hcol, himgsne]

/-- Witness for C1: one checked vector plus one checked raster yields the
zip archive with `doc.kml` and the raster's PNG under `rasters/`. -/
theorem c1_format_selection_witness :
    (run_export (some "o.kmz") true id [sampleVectorRow, sampleRasterRow]).artifact =
      some (.kmz "o.kmz" (("doc.kml", tmpDir ++ "/doc.kml") ::
        (checkedRasterImgs (tmpDir ++ "/rasters") [sampleVectorRow, sampleRasterRow]).map
          (fun f => ("rasters/" ++ basename f, f)))) := by
  exact (c1_format_selection "o.kmz" true id [sampleVectorRow, sampleRasterRow]
    (by decide)).2.2.1 (by decide)

/-- C8. Error propagation: the first failing checked layer aborts the
whole export — no output artifact is produced at the output path, rows past
the failing one are never attempted, and the failure surfaces as the single
error message of the failing layer. -/
theorem c8_error_propagation (out : String) (hp : Bool) (warp : GdalDataset → GdalDataset)
    (pre post : List Row) (bad : Row)
    (hok : ∀ r ∈ pre, r.checked = true → r.ok = true)
    (hc : bad.checked = true) (hbad : bad.ok = false) :
    (run_export (some out) hp warp (pre ++ bad :: post)).artifact = none ∧
    (run_export (some out) hp warp (pre ++ bad :: post)).errorMsg = some bad.errMsg ∧
    ∀ j ∈ (run_export (some out) hp warp (pre ++ bad :: post)).attempted, j ≤ pre.length := by
  have hsplit : (pre ++ bad :: post).enum =
      pre.enum ++ (pre.length, bad) :: List.enumFrom (pre.length + 1) post := by
    rw [List.enum_append, List.enumFrom_cons]
  have henum : ∀ p ∈ pre.enum, (p.2 : Row).checked = true → (p.2 : Row).ok = true :=
    fun p hp' => hok p.2 (List.snd_mem_of_mem_enum hp')
  have hloop := exportLoop_first_error warp hp (countCheckedRasters (pre ++ bad :: post))
    (tmpDir ++ "/rasters") pre.enum pre.length bad (List.enumFrom (pre.length + 1) post)
    (ExpState.mk [] [] 0 (if hp then [0] else []) []) henum hc hbad
  rw [← hsplit] at hloop
  rcases hE : exportLoop warp hp (countCheckedRasters (pre ++ bad :: post))
      (tmpDir ++ "/rasters") (pre ++ bad :: post).enum
      (ExpState.mk [] [] 0 (if hp then [0] else []) []) with ⟨st, err⟩
  rw [hE] at hloop
  obtain ⟨he, hat⟩ := hloop
  simp only at he hat
  subst he
  simp only [List.nil_append] at hat
  refine ⟨?_, ?_, ?_⟩
  · simp [run_export, hE]
  · simp [run_export, hE]
  · intro j hj
    simp only [run_export, hE] at hj
    rw [hat] at hj
    rcases List.mem_append.mp hj with hj | hj
    · obtain ⟨x, hx, rfl⟩ := List.mem_map.mp hj
      have hxe : x ∈ pre.enum := List.mem_of_mem_filter hx
      have : x.1 ∈ pre.enum.map Prod.fst := List.mem_map_of_mem _ hxe
      rw [List.enum_map_fst] at this
      have := List.mem_range.mp this
      omega
    · simp only [List.mem_singleton] at hj
      omega

/-- Witness for C8: a run over one good vector row followed by an
unopenable one yields no artifact and the failing row's message. -/
theorem c8_error_propagation_witness :
    (run_export (some "o.kml") true id ([sampleVectorRow] ++ badVectorRow :: [])).artifact =
      none ∧
    (run_export (some "o.kml") true id ([sampleVectorRow] ++ badVectorRow :: [])).errorMsg =
      some "Cannot open vector /data/broken.shp" := by
  have h := c8_error_propagation "o.kml" true id [sampleVectorRow] [] badVectorRow
    (by decide) (by decide) (by decide)
  exact ⟨h.1, h.2.1⟩

/-- Counterexample to **C9** as stated: an export run with a progress bar
and zero selected raster layers still invokes the progress sink — once,
with value 0 (the reset issued before the layer loop). -/
theorem c9_progress_counterexample :
    countCheckedRasters [sampleVectorRow] = 0 ∧
    (run_export (some "o.kml") true id [sampleVectorRow]).progressCalls = [0] := by
  constructor
  · rfl
  · rfl

/-- C9 (amended). The progress sink receives only integers within
0–100; beyond one reset call with value 0, issued at the start of any run
with a progress bar present (even with zero rasters), it is invoked only as
raster layers complete; with no progress bar it is never invoked, and with
zero checked rasters it is invoked exactly once, with 0 — not never. -/
theorem c9_progress_amended (out : Option String) (hp : Bool)
    (warp : GdalDataset → GdalDataset) (rows : List Row) :
    (∀ v ∈ (run_export out hp warp rows).progressCalls, v ≤ 100) ∧
    (hp = false → (run_export out hp warp rows).progressCalls = []) ∧
    (∀ o, out = some o → countCheckedRasters rows = 0 →
      (run_export out hp warp rows).progressCalls = if hp then [0] else []) ∧
    (out = none → (run_export out hp warp rows).progressCalls = []) ∧
    (∀ o, out = some o → (∀ r ∈ rows, r.checked = true → r.ok = true) →
      (run_export out hp warp rows).progressCalls =
        (if hp then [0] else []) ++ pctCalls hp (countCheckedRasters rows) 0 rows) := by
  rcases out with _ | o
  · refine ⟨?_, ?_, ?_, ?_, ?_⟩ <;> simp [run_export]
  · rcases hE : exportLoop warp hp (countCheckedRasters rows) (tmpDir ++ "/rasters")
        rows.enum (ExpState.mk [] [] 0 (if hp then [0] else []) []) with ⟨st, err⟩
    have hruncalls : (run_export (some o) hp warp rows).progressCalls = st.progressCalls := by
      rcases err with _ | e <;> simp [run_export, hE]
    refine ⟨?_, ?_, ?_, ?_, ?_⟩
    · intro v hv
      rw [hruncalls] at hv
      have hle := exportLoop_progress_le warp hp (countCheckedRasters rows)
        (tmpDir ++ "/rasters") rows.enum
        (ExpState.mk [] [] 0 (if hp then [0] else []) [])
        (by rcases hp with _ | _ <;> simp) (by simp [List.enum_map_snd])
      rw [hE] at hle
      exact hle v hv
    · intro hhp
      subst hhp
      rw [hruncalls]
      have hsil := exportLoop_progress_silent warp false (countCheckedRasters rows)
        (tmpDir ++ "/rasters") rows.enum
        (ExpState.mk [] [] 0 (if false then [0] else []) []) (Or.inl rfl)
      rw [hE] at hsil
      simpa using hsil
    · intro o' ho' hzero
      rw [hruncalls]
      have hsil := exportLoop_progress_silent warp hp (countCheckedRasters rows)
        (tmpDir ++ "/rasters") rows.enum
        (ExpState.mk [] [] 0 (if hp then [0] else []) [])
        (Or.inr (by rw [List.enum_map_snd]; exact hzero))
      rw [hE] at hsil
      simpa using hsil
    · intro hnone
      exact absurd hnone (by simp)
    · intro o' ho' hall
      rw [hruncalls]
      have henum : ∀ p ∈ rows.enum, (p.2 : Row).checked = true → (p.2 : Row).ok = true :=
        fun p hp' => hall p.2 (List.snd_mem_of_mem_enum hp')
      have hloop := exportLoop_all_ok warp hp (countCheckedRasters rows)
        (tmpDir ++ "/rasters") rows.enum
        (ExpState.mk [] [] 0 (if hp then [0] else []) []) henum
      rw [List.enum_map_snd, hE] at hloop
      exact hloop.2.2.1

/-- Witness for the amended C9: with a progress bar, one vector and one
raster, the sink receives the reset 0 and then 100. -/
theorem c9_progress_amended_witness :
    (run_export (some "o.kmz") true id [sampleVectorRow, sampleRasterRow]).progressCalls =
      [0, 100] := by
  have h := (c9_progress_amended (some "o.kmz") true id
    [sampleVectorRow, sampleRasterRow]).2.2.2.2 "o.kmz" rfl (by decide)
  rw [h]
  rfl

end Export2KML




